import Mathlib

/-!
Shallow embedding of the quick-convex queue component
(`src/component/lib.ts` and the worker dispatch in
`src/component/_generated/component.ts`), together with proofs about its
scheduling, leasing, retry and completion machinery.

Modelling conventions:
* times are milliseconds as `Nat` (the code only ever works with
  non-negative epoch timestamps and durations);
* opaque `v.any()` values (payloads, results, contexts) are modelled as
  `String`, since the engine never inspects them;
* a Convex document read (`ctx.db.get`) is an `Option` of the row; a
  mutation is a pure function from the affected row(s) to the updated
  row(s) plus its returned value;
* `ctx.runMutation` / `ctx.runAction` calls to user handlers are modelled
  by an outcome parameter (the handler's behaviour) plus an explicit event
  trace recording every store write and every handler/callback invocation,
  in program order;
* `uuid()` lease-token generation is modelled by a token parameter.
-/

namespace Quick

/-- Milliseconds since the epoch, as used throughout the component. -/
abbrev Time := Nat

/-- Queue ordering discipline (`QueueOrder` in `lib.ts`). -/
inductive QueueOrder where
  | vesting
  | fifo
deriving DecidableEq, Repr

/-- Handler kind (`HandlerType` in `lib.ts`). -/
inductive HandlerType where
  | action
  | mutation
deriving DecidableEq, Repr

/-- Completion status (`CompletionStatus` in `lib.ts`). -/
inductive CompletionStatus where
  | success
  | failure
  | cancelled
deriving DecidableEq, Repr

/-- Item lifecycle phase (`phase` field: `"run" | "onComplete"`). -/
inductive Phase where
  | run
  | onComplete
deriving DecidableEq, Repr

/-- Retry behaviour record (`retryBehaviorValidator`). The schema types the
fields as JS numbers; the engine only ever uses the non-negative integer
defaults, so they are modelled as `Nat`. -/
structure RetryBehavior where
  maxAttempts : Nat
  initialBackoffMs : Nat
  base : Nat
deriving DecidableEq, Repr

/-- `DEFAULT_RETRY_BEHAVIOR` in `lib.ts`. -/
def DEFAULT_RETRY_BEHAVIOR : RetryBehavior :=
  { maxAttempts := 5, initialBackoffMs := 250, base := 2 }

/-- `DEFAULT_ON_COMPLETE_TIMEOUT_RETRIES` in `lib.ts`. -/
def DEFAULT_ON_COMPLETE_TIMEOUT_RETRIES : Nat := 2

/-- One `queueItems` row, fields as in `schema.ts` (variant with
`by_queue_and_vesting_time`, which `lib.ts` reads and writes). -/
structure QueueItem where
  queueId : String
  payload : String
  handler : String
  handlerType : Option HandlerType
  onCompleteHandler : Option String
  onCompleteContext : Option String
  phase : Option Phase
  completionStatus : Option CompletionStatus
  completionResult : Option String
  onCompleteTimeoutRetries : Option Nat
  retryEnabled : Option Bool
  retryBehavior : Option RetryBehavior
  vestingTime : Time
  leaseId : Option String
  leaseExpiry : Option Time
  errorCount : Nat
deriving DecidableEq, Repr

/-- One `queuePointers` row, fields as in `schema.ts`. -/
structure QueuePointer where
  queueId : String
  vestingTime : Time
  leaseId : Option String
  leaseExpiry : Option Time
  lastActiveTime : Time
deriving DecidableEq, Repr

/-- `ResolvedConfig` in `lib.ts`. -/
structure ResolvedConfig where
  scannerLeaseDurationMs : Nat
  scannerBackoffMinMs : Nat
  scannerBackoffMaxMs : Nat
  pointerBatchSize : Nat
  maxConcurrentManagers : Nat
  defaultOrderBy : QueueOrder
  defaultLeaseDurationMs : Nat
  minInactiveBeforeDeleteMs : Nat
  retryByDefault : Bool
  defaultRetryBehavior : RetryBehavior
deriving DecidableEq, Repr

/-- `CONFIG_DEFAULTS` in `lib.ts`. -/
def CONFIG_DEFAULTS : ResolvedConfig :=
  { scannerLeaseDurationMs := 10000
    scannerBackoffMinMs := 100
    scannerBackoffMaxMs := 5000
    pointerBatchSize := 50
    maxConcurrentManagers := 10
    defaultOrderBy := .vesting
    defaultLeaseDurationMs := 30000
    minInactiveBeforeDeleteMs := 60000
    retryByDefault := false
    defaultRetryBehavior := DEFAULT_RETRY_BEHAVIOR }

/-- JS test `row.leaseExpiry && row.leaseExpiry > now`: the row holds a
currently-active (unexpired) lease. Over `Nat` the truthiness guard on
`leaseExpiry = 0` coincides with `0 > now` being false. -/
def leaseActive (leaseExpiry : Option Time) (now : Time) : Bool :=
  match leaseExpiry with
  | none => false
  | some e => now < e

/-- `resolveVestingTime` in `lib.ts`: the thrown `Error` (mutually
exclusive `runAfter`/`runAt`) becomes an `Except.error` carrying the
message; branch order mirrors the source. -/
def resolveVestingTime (now : Time) (runAfter runAt : Option Nat) :
    Except String Time :=
  if runAfter.isSome && runAt.isSome then
    .error "Specify only one of runAfter or runAt"
  else if h : runAt.isSome then
    .ok (runAt.get h)
  else if h : runAfter.isSome then
    .ok (now + runAfter.get h)
  else
    .ok now

/-- `resolveItemRetryPolicy` in `lib.ts`, returning
`(retryEnabled, retryBehavior)`. -/
def resolveItemRetryPolicy (config : ResolvedConfig)
    (retry : Option Bool) (retryBehavior : Option RetryBehavior) :
    Bool × Option RetryBehavior :=
  let retryEnabled :=
    retry.getD (if retryBehavior.isSome then true else config.retryByDefault)
  if retryEnabled = false then (false, none)
  else (true, some (retryBehavior.getD config.defaultRetryBehavior))

/-- `getRetryDelayMs` in `lib.ts`: over `Nat`, truncated subtraction
`attemptNumber - 1` agrees with the source's `Math.max(0, attemptNumber - 1)`. -/
def getRetryDelayMs (retryBehavior : RetryBehavior) (attemptNumber : Nat) : Nat :=
  retryBehavior.initialBackoffMs * retryBehavior.base ^ (attemptNumber - 1)

/-- The `data` field of a caught error value, as inspected by
`isTimeoutError`: either a string, or an object with an optional string
`message` field. -/
inductive DataVal where
  | str (s : String)
  | obj (message : Option String)
deriving DecidableEq, Repr

/-- A caught JS error value (`error: unknown`) as far as `isTimeoutError`
inspects it: either a plain string, or an object with optional string
`message` and `cause` fields and an optional `data` field. The `str`
argument of `obj` models `String(error)` — in JS an object's string
conversion comes from its own `toString` and is not determined by its
`message`/`cause`/`data` fields. Non-string `message`/`cause` fields are
skipped by the source, so they are modelled as absent. -/
inductive ErrVal where
  | str (s : String)
  | obj (message cause : Option String) (data : Option DataVal) (str : String)
deriving DecidableEq, Repr

/-- `String(error)` for an `ErrVal`: a string converts to itself; an
object's conversion is its modelled `toString` output. -/
def errToString : ErrVal → String
  | .str s => s
  | .obj _ _ _ s => s

/-- Substring occurrence test over character lists (structurally
recursive so that concrete instances evaluate in the kernel). -/
def hasSubstringChars (needle : List Char) : List Char → Bool
  | [] => needle.isEmpty
  | c :: rest => needle.isPrefixOf (c :: rest) || hasSubstringChars needle rest

/-- The regex test `/timed out|timeout/i.test(message)`: the lower-cased
message contains `"timed out"` or `"timeout"` as a substring (ASCII
lower-casing coincides with the `/i` flag for this pattern). -/
def timeoutPattern (message : String) : Bool :=
  let ls := message.data.map Char.toLower
  hasSubstringChars "timed out".data ls || hasSubstringChars "timeout".data ls

/-- `isTimeoutError` in `lib.ts`: collect candidate messages (the string
itself for string errors; `message`, `cause`, `data.message` or string
`data` for objects; always also `String(error)`) and test each against the
timeout regex. -/
def isTimeoutError (error : ErrVal) : Bool :=
  let messages : List String :=
    (match error with
     | .str s => [s]
     | .obj message cause data _ =>
       (match message with | some m => [m] | none => []) ++
       (match cause with | some c => [c] | none => []) ++
       (match data with
        | some (.obj (some m)) => [m]
        | some (.obj none) => []
        | some (.str s) => [s]
        | none => []))
    ++ [errToString error]
  messages.any timeoutPattern

/-- Modelled from the spec's words, for comparison with `isTimeoutError`:
"any of the error's message, cause, or nested data field matching
/timed out|timeout/ (case-insensitive)". -/
def specTimeoutClassified : ErrVal → Bool
  | .str s => timeoutPattern s
  | .obj message cause data _ =>
    (match message with | some m => timeoutPattern m | none => false) ||
    (match cause with | some c => timeoutPattern c | none => false) ||
    (match data with
     | some (.obj (some m)) => timeoutPattern m
     | some (.obj none) => false
     | some (.str s) => timeoutPattern s
     | none => false)

/-- Loop body of `collectAvailableItems` in `lib.ts`, recursing over the
index scan (`items` arrive in the index order: `by_queue_and_vesting_time`
for vesting mode, `by_queue_fifo` i.e. insertion order for FIFO mode).
`scanned` and `acc` are the source's loop variables. -/
def collectAux (orderBy : QueueOrder) (now : Time) (limit maxScan : Nat) :
    Nat → List QueueItem → List QueueItem → List QueueItem
  | _, acc, [] => acc
  | scanned, acc, item :: rest =>
    if maxScan < scanned + 1 then acc
    else if now < item.vestingTime then
      -- For vesting order, all later rows are also in the future.
      -- For FIFO, strict head-of-line semantics block on the first future row.
      acc
    else if leaseActive item.leaseExpiry now then
      match orderBy with
      | .fifo => acc    -- strict FIFO: do not skip a leased head item
      | .vesting => collectAux orderBy now limit maxScan (scanned + 1) acc rest
    else
      let acc' := acc ++ [item]
      if limit ≤ acc'.length then acc'
      else collectAux orderBy now limit maxScan (scanned + 1) acc' rest

/-- `collectAvailableItems` in `lib.ts` (`maxScan = 1000`). -/
def collectAvailableItems (items : List QueueItem) (limit : Nat)
    (orderBy : QueueOrder) (now : Time) : List QueueItem :=
  collectAux orderBy now limit 1000 0 [] items

/-- `obtainPointerLease` in `lib.ts`: `freshId` models the generated
`uuid()`, `leaseDurationMs` the already-resolved duration
(`args.leaseDurationMs ?? config.defaultLeaseDurationMs`). Returns the
updated row and the mutation's return value. -/
def obtainPointerLease (store : Option QueuePointer) (freshId : String)
    (leaseDurationMs : Nat) (now : Time) :
    Option QueuePointer × Option String :=
  match store with
  | none => (none, none)
  | some pointer =>
    if leaseActive pointer.leaseExpiry now then (some pointer, none)
    else
      let leaseExpiry := now + leaseDurationMs
      (some { pointer with
                leaseId := some freshId
                leaseExpiry := some leaseExpiry
                vestingTime := leaseExpiry },
       some freshId)

/-- `obtainItemLease` in `lib.ts` (same shape as the pointer version). -/
def obtainItemLease (store : Option QueueItem) (freshId : String)
    (leaseDurationMs : Nat) (now : Time) :
    Option QueueItem × Option String :=
  match store with
  | none => (none, none)
  | some item =>
    if leaseActive item.leaseExpiry now then (some item, none)
    else
      let leaseExpiry := now + leaseDurationMs
      (some { item with
                leaseId := some freshId
                leaseExpiry := some leaseExpiry
                vestingTime := leaseExpiry },
       some freshId)

/-- `extendItemLease` in `lib.ts`. -/
def extendItemLease (store : Option QueueItem) (leaseId : String)
    (leaseDurationMs : Nat) (now : Time) : Option QueueItem × Bool :=
  match store with
  | none => (none, false)
  | some item =>
    if item.leaseId ≠ some leaseId then (some item, false)
    else
      let leaseExpiry := now + leaseDurationMs
      (some { item with
                leaseExpiry := some leaseExpiry
                vestingTime := leaseExpiry },
       true)

/-- `releasePointerLease` in `lib.ts`. -/
def releasePointerLease (store : Option QueuePointer) (leaseId : String)
    (nextVestingTime : Option Time) (now : Time) :
    Option QueuePointer × Bool :=
  match store with
  | none => (none, false)
  | some pointer =>
    if pointer.leaseId ≠ some leaseId then (some pointer, false)
    else
      (some { pointer with
                leaseId := none
                leaseExpiry := none
                vestingTime := nextVestingTime.getD now
                lastActiveTime := now },
       true)

/-- `dequeue` in `lib.ts`, the part after config/argument resolution: scan
with `collectAvailableItems`, then lease each selected item in the same
transaction. `fresh i` models the `uuid()` generated for the i-th claimed
item. Returns the `result` array of (patched item, leaseId) pairs; each
pair's item is exactly the patch written back to the store. -/
def dequeue (items : List QueueItem) (limit leaseDurationMs : Nat)
    (orderBy : QueueOrder) (now : Time) (fresh : Nat → String) :
    List (QueueItem × String) :=
  let availableItems := collectAvailableItems items limit orderBy now
  (availableItems.take limit).enum.map (fun p =>
    let leaseId := fresh p.1
    let leaseExpiry := now + leaseDurationMs
    ({ p.2 with
         leaseId := some leaseId
         leaseExpiry := some leaseExpiry
         vestingTime := leaseExpiry },
     leaseId))

/-- `updatePointerVesting` in `lib.ts`, acting on this queue's pointer row;
the returned `Bool` records whether a scanner wake was scheduled. -/
def updatePointerVesting (store : Option QueuePointer) (vestingTime : Time)
    (now : Time) : Option QueuePointer × Bool :=
  match store with
  | none => (none, false)
  | some pointer =>
    if vestingTime < pointer.vestingTime then
      (some { pointer with vestingTime := vestingTime, lastActiveTime := now },
       true)
    else (some pointer, false)

/-- Store events emitted, in program order, by the worker-finalization
functions: every item write/delete and every user-function invocation. -/
inductive Event where
  | invokeHandler
  | invokeCallback (status : CompletionStatus) (result : Option String)
  | patchItem (item : QueueItem)
  | deleteItem
  | requestWake (queueId : String) (vestingTime : Time)
deriving DecidableEq, Repr

/-- Behaviour of the user's on-complete callback when invoked
(`ctx.runMutation(fnHandle, ...)` in `runOnCompleteForItem`): it either
returns, or throws the given error value. -/
inductive CbOutcome where
  | ok
  | err (e : ErrVal)
deriving DecidableEq, Repr

/-- Result of one `runOnCompleteForItem` call: the item row afterwards
(`none` if deleted), the two returned flags, and the event trace. -/
structure OnCompleteStep where
  store : Option QueueItem
  done : Bool
  retriedOnComplete : Bool
  events : List Event
deriving DecidableEq, Repr

/-- `runOnCompleteForItem` in `lib.ts`. The
`schedulePointerWakeIfEarlier` call is recorded as a `requestWake` event
(its effect on the pointer table is `updatePointerVesting`, modelled
separately). -/
def runOnCompleteForItem (item : QueueItem) (cb : CbOutcome) (now : Time) :
    OnCompleteStep :=
  match item.onCompleteHandler with
  | none => ⟨none, true, false, [.deleteItem]⟩
  | some _ =>
    let callEv : Event :=
      .invokeCallback (item.completionStatus.getD .failure) item.completionResult
    match cb with
    | .ok => ⟨none, true, false, [callEv, .deleteItem]⟩
    | .err e =>
      let timeoutRetries := item.onCompleteTimeoutRetries.getD 0
      if isTimeoutError e ∧ timeoutRetries < DEFAULT_ON_COMPLETE_TIMEOUT_RETRIES then
        let retryVestingTime := now + 100
        let item' := { item with
                         onCompleteTimeoutRetries := some (timeoutRetries + 1)
                         vestingTime := retryVestingTime
                         leaseId := none
                         leaseExpiry := none }
        ⟨some item', false, true,
         [callEv, .patchItem item', .requestWake item.queueId retryVestingTime]⟩
      else
        ⟨none, true, false, [callEv, .deleteItem]⟩

/-- Return value of `finalizeActionWorker`. -/
structure FinalizeResult where
  done : Bool
  retriedWork : Bool
  retriedOnComplete : Bool
deriving DecidableEq, Repr

/-- Result of one `finalizeActionWorker` call: the item row afterwards,
the returned flags, and the event trace. -/
structure FinalizeOutcome where
  store : Option QueueItem
  result : FinalizeResult
  events : List Event
deriving DecidableEq, Repr

/-- `finalizeActionWorker` in `lib.ts`. The source's nested conditionals
(`args.status === "failure"`, then `retryEnabled && nextErrorCount <
maxAttempts`, both otherwise falling through to the on-complete
transition) are flattened into one conjunction. The re-read `refreshed =
ctx.db.get(item._id)` after the phase patch is the just-patched row, and
its lease re-check is kept as written. -/
def finalizeActionWorker (store : Option QueueItem) (leaseId : String)
    (status : Option CompletionStatus) (result : Option String)
    (cb : CbOutcome) (now : Time) : FinalizeOutcome :=
  match store with
  | none => ⟨none, ⟨false, false, false⟩, []⟩
  | some item =>
    if item.leaseId ≠ some leaseId then
      ⟨some item, ⟨false, false, false⟩, []⟩
    else if item.phase.getD .run = .onComplete then
      let step := runOnCompleteForItem item cb now
      ⟨step.store, ⟨step.done, false, step.retriedOnComplete⟩, step.events⟩
    else
      match status with
      | none => ⟨some item, ⟨false, false, false⟩, []⟩
      | some st =>
        let retryEnabled := item.retryEnabled.getD false
        let retryBehavior := item.retryBehavior.getD DEFAULT_RETRY_BEHAVIOR
        let nextErrorCount := item.errorCount + 1
        let maxAttempts := max 1 retryBehavior.maxAttempts
        if st = .failure ∧ retryEnabled = true ∧ nextErrorCount < maxAttempts then
          let backoffMs := getRetryDelayMs retryBehavior nextErrorCount
          let retryVestingTime := now + backoffMs
          let item' := { item with
                           errorCount := nextErrorCount
                           vestingTime := retryVestingTime
                           leaseId := none
                           leaseExpiry := none }
          ⟨some item', ⟨false, true, false⟩,
           [.patchItem item', .requestWake item.queueId retryVestingTime]⟩
        else
          let item' := { item with
                           phase := some .onComplete
                           completionStatus := some st
                           completionResult := result }
          if item'.leaseId ≠ some leaseId then
            ⟨some item', ⟨false, false, false⟩, [.patchItem item']⟩
          else
            let step := runOnCompleteForItem item' cb now
            ⟨step.store, ⟨step.done, false, step.retriedOnComplete⟩,
             .patchItem item' :: step.events⟩

/-- Return value of `prepareActionWorkerExecution`. -/
structure PrepareResult where
  valid : Bool
  phase : Phase
deriving DecidableEq, Repr

/-- `prepareActionWorkerExecution` in `lib.ts`. -/
def prepareActionWorkerExecution (store : Option QueueItem) (leaseId : String) :
    PrepareResult :=
  match store with
  | none => ⟨false, .run⟩
  | some item =>
    if item.leaseId ≠ some leaseId then ⟨false, .run⟩
    else ⟨true, item.phase.getD .run⟩

/-- Behaviour of the user's primary handler when invoked
(`ctx.runAction(fnHandle, ...)` in `runWorkerAction`): it either returns a
result or throws; a thrown error's message becomes the recorded result
string, as in the source. -/
inductive HandlerOutcome where
  | ok (result : String)
  | err (message : String)
deriving DecidableEq, Repr

/-- Result of one `runWorkerAction` dispatch. -/
structure WorkerOutcome where
  store : Option QueueItem
  events : List Event
deriving DecidableEq, Repr

/-- `runWorkerAction` in `_generated/component.ts`: preflight via
`prepareActionWorkerExecution`; an item already in the on-complete phase is
finalized with no status and the primary handler is never run; otherwise
the handler runs and its outcome is finalized. The concurrent
lease-heartbeat loop is a real-time race and is outside this sequential
embedding: here the lease is held for the whole dispatch (`leaseValid`
stays true), which is the regime every claim about this function assumes. -/
def runWorkerAction (store : Option QueueItem) (leaseId : String)
    (handlerRun : HandlerOutcome) (cb : CbOutcome) (now : Time) :
    WorkerOutcome :=
  let preflight := prepareActionWorkerExecution store leaseId
  if preflight.valid = false then ⟨store, []⟩
  else if preflight.phase = .onComplete then
    let fin := finalizeActionWorker store leaseId none none cb now
    ⟨fin.store, fin.events⟩
  else
    let statusResult : CompletionStatus × Option String :=
      match handlerRun with
      | .ok r => (.success, some r)
      | .err m => (.failure, some m)
    let fin := finalizeActionWorker store leaseId (some statusResult.1)
      statusResult.2 cb now
    ⟨fin.store, .invokeHandler :: fin.events⟩

/-- Number of on-complete callback invocations recorded in a trace. -/
def countCallbackInvocations (events : List Event) : Nat :=
  events.countP (fun e =>
    match e with
    | .invokeCallback _ _ => true
    | _ => false)

/-- Drives `runOnCompleteForItem` once per remaining lease cycle, feeding
the callback's behaviour for each invocation from `outcomes`; between
cycles the item (with its lease cleared by the retry patch) is re-leased
and re-dispatched, which re-enters `runOnCompleteForItem` unchanged.
Returns the final item row and the total number of callback invocations. -/
def runOnCompleteLoop (item : QueueItem) (now : Time) :
    List CbOutcome → Option QueueItem × Nat
  | [] => (some item, 0)
  | cb :: rest =>
    let step := runOnCompleteForItem item cb now
    match step.store with
    | none => (none, countCallbackInvocations step.events)
    | some item' =>
      let next := runOnCompleteLoop item' now rest
      (next.1, countCallbackInvocations step.events + next.2)

/-- Arguments of `enqueue` (and of one `enqueueBatch` entry) that reach the
queue engine; the optional per-call `config` override is resolved before
this point and is threaded in as the `ResolvedConfig`. -/
structure EnqueueArgs where
  queueId : String
  payload : String
  handler : String
  handlerType : Option HandlerType
  onCompleteHandler : Option String
  onCompleteContext : Option String
  retry : Option Bool
  retryBehavior : Option RetryBehavior
  runAfter : Option Nat
  runAt : Option Nat
deriving DecidableEq, Repr

/-- The `ctx.db.insert("queueItems", ...)` document built by `enqueue` and
by the `enqueueBatch` loop body: `phase = "run"`, `errorCount = 0`, resolved
retry policy, fields not mentioned by the insert absent. -/
def buildQueueItem (config : ResolvedConfig) (args : EnqueueArgs)
    (vestingTime : Time) : QueueItem :=
  let retryPolicy := resolveItemRetryPolicy config args.retry args.retryBehavior
  { queueId := args.queueId
    payload := args.payload
    handler := args.handler
    handlerType := some (args.handlerType.getD .action)
    onCompleteHandler := args.onCompleteHandler
    onCompleteContext := args.onCompleteContext
    phase := some .run
    completionStatus := none
    completionResult := none
    onCompleteTimeoutRetries := none
    retryEnabled := some retryPolicy.1
    retryBehavior := retryPolicy.2
    vestingTime := vestingTime
    leaseId := none
    leaseExpiry := none
    errorCount := 0 }

/-- Effects of one `enqueue` transaction on the touched queue's slice of
the store: the queue's item rows, its pointer row, the scheduled
`updatePointerVesting` request (if any) and whether `tryWakeScanner` was
scheduled. -/
structure EnqueueEffects where
  items : List QueueItem
  pointer : Option QueuePointer
  tightenRequest : Option Time
  wakeRequested : Bool
deriving DecidableEq, Repr

/-- `enqueue` in `lib.ts`, after config resolution. A thrown
`resolveVestingTime` error aborts the Convex mutation, rolling back every
write, hence the `Except`: on error nothing is inserted. -/
def enqueue (config : ResolvedConfig) (items : List QueueItem)
    (pointer : Option QueuePointer) (args : EnqueueArgs) (now : Time) :
    Except String EnqueueEffects :=
  match resolveVestingTime now args.runAfter args.runAt with
  | .error e => .error e
  | .ok vestingTime =>
    let newItem := buildQueueItem config args vestingTime
    match pointer with
    | some existingPointer =>
      if vestingTime < existingPointer.vestingTime then
        .ok ⟨items ++ [newItem], some existingPointer, some vestingTime, false⟩
      else
        .ok ⟨items ++ [newItem], some existingPointer, none, false⟩
    | none =>
      .ok ⟨items ++ [newItem],
           some ⟨args.queueId, vestingTime, none, none, now⟩, none, true⟩

/-- The `pointerUpdates` map maintenance in the `enqueueBatch` loop:
set the entry when absent or when the new vesting time is strictly
earlier (the map is an association list keyed by queue id). -/
def coalescePointerUpdate (updates : List (String × Time)) (queueId : String)
    (vestingTime : Time) : List (String × Time) :=
  match updates.lookup queueId with
  | none => updates ++ [(queueId, vestingTime)]
  | some existing =>
    if vestingTime < existing then
      updates.map (fun p => if p.1 = queueId then (queueId, vestingTime) else p)
    else updates

/-- Item-insertion loop of `enqueueBatch` in `lib.ts`, with the source's
loop accumulators (`itemIds` as the inserted items, `pointerUpdates`)
explicit; a thrown `resolveVestingTime` error aborts the whole mutation. -/
def enqueueBatchLoop (config : ResolvedConfig) (now : Time) :
    List EnqueueArgs → List QueueItem → List (String × Time) →
    Except String (List QueueItem × List (String × Time))
  | [], items, updates => .ok (items, updates)
  | args :: rest, items, updates =>
    match resolveVestingTime now args.runAfter args.runAt with
    | .error e => .error e
    | .ok vestingTime =>
      enqueueBatchLoop config now rest
        (items ++ [buildQueueItem config args vestingTime])
        (coalescePointerUpdate updates args.queueId vestingTime)

/-- `enqueueBatch` in `lib.ts`, after config resolution: on success,
returns the inserted items and the coalesced per-queue pointer updates
(each then applied with the same tighten-or-insert logic as `enqueue`). -/
def enqueueBatch (config : ResolvedConfig) (batch : List EnqueueArgs)
    (now : Time) : Except String (List QueueItem × List (String × Time)) :=
  enqueueBatchLoop config now batch [] []

/-- Concrete run-phase item used by witnesses: leased by `"lease-A"`. -/
def wItem : QueueItem :=
  { queueId := "orders"
    payload := "job-1"
    handler := "handlers.process"
    handlerType := some .action
    onCompleteHandler := some "handlers.done"
    onCompleteContext := none
    phase := some .run
    completionStatus := none
    completionResult := none
    onCompleteTimeoutRetries := none
    retryEnabled := some true
    retryBehavior := some DEFAULT_RETRY_BEHAVIOR
    vestingTime := 0
    leaseId := some "lease-A"
    leaseExpiry := some 1000
    errorCount := 0 }

/-- Concrete pointer row used by witnesses: leased by `"lease-P"`. -/
def wPointer : QueuePointer :=
  { queueId := "orders"
    vestingTime := 900
    leaseId := some "lease-P"
    leaseExpiry := some 900
    lastActiveTime := 10 }

/-- C10: calling `finalizeActionWorker` with a matching lease on an item
still in the run phase but with the `status` argument omitted is a pure
no-op — it returns `{done:false, retriedWork:false, retriedOnComplete:false}`,
writes nothing (empty event trace) and leaves the stored item, every field
included, unchanged. -/
theorem finalize_run_phase_no_status_noop
    (item : QueueItem) (lid : String) (cb : CbOutcome) (now : Time)
    (hlease : item.leaseId = some lid)
    (hphase : item.phase.getD .run ≠ .onComplete) :
    finalizeActionWorker (some item) lid none none cb now =
      ⟨some item, ⟨false, false, false⟩, []⟩ := by
  simp [finalizeActionWorker, hlease, hphase]

/-- Witness for C10 at the concrete run-phase item `wItem`. -/
theorem finalize_run_phase_no_status_noop_witness :
    finalizeActionWorker (some wItem) "lease-A" none none .ok 50 =
      ⟨some wItem, ⟨false, false, false⟩, []⟩ :=
  finalize_run_phase_no_status_noop wItem "lease-A" .ok 50 (by decide) (by decide)

/-- C9: when an item reaches the on-complete phase with no
`onCompleteHandler` set, `finalizeActionWorker` deletes the item
immediately and reports `done = true`; the event trace is exactly the
delete, so no callback (and no handler) is invoked. -/
theorem finalize_on_complete_without_handler_deletes
    (item : QueueItem) (lid : String) (cb : CbOutcome) (now : Time)
    (hlease : item.leaseId = some lid)
    (hphase : item.phase = some .onComplete)
    (hnone : item.onCompleteHandler = none) :
    finalizeActionWorker (some item) lid none none cb now =
      ⟨none, ⟨true, false, false⟩, [.deleteItem]⟩ := by
  simp [finalizeActionWorker, runOnCompleteForItem, hlease, hphase, hnone]

/-- Witness for C9: `wItem` moved to the on-complete phase with its
callback reference removed. -/
theorem finalize_on_complete_without_handler_deletes_witness :
    finalizeActionWorker
      (some { wItem with
                phase := some .onComplete
                completionStatus := some .success
                onCompleteHandler := none })
      "lease-A" none none .ok 50 =
      ⟨none, ⟨true, false, false⟩, [.deleteItem]⟩ :=
  finalize_on_complete_without_handler_deletes
    { wItem with
        phase := some .onComplete
        completionStatus := some .success
        onCompleteHandler := none }
    "lease-A" .ok 50 (by decide) (by decide) (by decide)

/-- C3: every lease-gated operation (`extendItemLease`,
`releasePointerLease`, `finalizeActionWorker`) called with a lease token
that does not match the row's stored token, or called on a missing row,
leaves the row completely unchanged and reports failure/no-op (`false`, or
the all-false result object) without raising an error. -/
theorem lease_fencing
    (lid : String) (durMs : Nat) (now : Time) (nextVesting : Option Time)
    (status : Option CompletionStatus) (result : Option String)
    (cb : CbOutcome) :
    (∀ item : QueueItem, item.leaseId ≠ some lid →
       extendItemLease (some item) lid durMs now = (some item, false)) ∧
    extendItemLease none lid durMs now = (none, false) ∧
    (∀ pointer : QueuePointer, pointer.leaseId ≠ some lid →
       releasePointerLease (some pointer) lid nextVesting now =
         (some pointer, false)) ∧
    releasePointerLease none lid nextVesting now = (none, false) ∧
    (∀ item : QueueItem, item.leaseId ≠ some lid →
       finalizeActionWorker (some item) lid status result cb now =
         ⟨some item, ⟨false, false, false⟩, []⟩) ∧
    finalizeActionWorker none lid status result cb now =
      ⟨none, ⟨false, false, false⟩, []⟩ := by
  refine ⟨fun item h => ?_, rfl, fun pointer h => ?_, rfl, fun item h => ?_, rfl⟩
  · simp [extendItemLease, h]
  · simp [releasePointerLease, h]
  · simp [finalizeActionWorker, h]

/-- Witness for C3 at the concrete leased rows `wItem` / `wPointer` and
the stale token `"stale"`. -/
theorem lease_fencing_witness :
    extendItemLease (some wItem) "stale" 30000 50 = (some wItem, false) ∧
    releasePointerLease (some wPointer) "stale" none 50 = (some wPointer, false) ∧
    finalizeActionWorker (some wItem) "stale" (some .success) (some "r") .ok 50 =
      ⟨some wItem, ⟨false, false, false⟩, []⟩ :=
  ⟨(lease_fencing "stale" 30000 50 none (some .success) (some "r") .ok).1
     wItem (by decide),
   (lease_fencing "stale" 30000 50 none (some .success) (some "r") .ok).2.2.1
     wPointer (by decide),
   (lease_fencing "stale" 30000 50 none (some .success) (some "r") .ok).2.2.2.2.1
     wItem (by decide)⟩

/-- Helper for C8: if some entry of the batch supplies both `runAfter` and
`runAt`, the `enqueueBatch` loop aborts with an error, whatever has been
accumulated so far. -/
theorem enqueueBatchLoop_error_of_both (config : ResolvedConfig) (now : Time) :
    ∀ (batch : List EnqueueArgs) (items : List QueueItem)
      (updates : List (String × Time)) (args : EnqueueArgs),
      args ∈ batch → args.runAfter.isSome → args.runAt.isSome →
      ∃ e, enqueueBatchLoop config now batch items updates = .error e := by
  intro batch
  induction batch with
  | nil => intro _ _ args h; exact absurd h (List.not_mem_nil args)
  | cons hd tl ih =>
    intro items updates args hmem hAfter hAt
    rcases List.mem_cons.mp hmem with hEq | hTl
    · subst hEq
      refine ⟨"Specify only one of runAfter or runAt", ?_⟩
      simp [enqueueBatchLoop, resolveVestingTime, hAfter, hAt]
    · cases hhd : resolveVestingTime now hd.runAfter hd.runAt with
      | error e => exact ⟨e, by simp [enqueueBatchLoop, hhd]⟩
      | ok v =>
        obtain ⟨e, he⟩ := ih
          (items ++ [buildQueueItem config hd v])
          (coalescePointerUpdate updates hd.queueId v) args hTl hAfter hAt
        exact ⟨e, by simp [enqueueBatchLoop, hhd, he]⟩

/-- C8: supplying both `runAfter` and `runAt` makes `enqueue` (and
`enqueueBatch`, for any offending entry) fail with the schedule error — the
transaction aborts, so no queue item is inserted (the `Except.error` result
carries no effects); supplying exactly one resolves the item's vesting time
to `now + runAfter` or to `runAt` respectively, and supplying neither
resolves it to `now`, the built item carrying exactly that vesting time. -/
theorem schedule_args_exclusive
    (config : ResolvedConfig) (items : List QueueItem)
    (pointer : Option QueuePointer) (now : Time) (args : EnqueueArgs)
    (batch : List EnqueueArgs) :
    (args.runAfter.isSome → args.runAt.isSome →
       enqueue config items pointer args now =
         .error "Specify only one of runAfter or runAt") ∧
    (args ∈ batch → args.runAfter.isSome → args.runAt.isSome →
       ∃ e, enqueueBatch config batch now = .error e) ∧
    (∀ d, args.runAfter = some d → args.runAt = none →
       resolveVestingTime now args.runAfter args.runAt = .ok (now + d)) ∧
    (∀ t, args.runAfter = none → args.runAt = some t →
       resolveVestingTime now args.runAfter args.runAt = .ok t) ∧
    (args.runAfter = none → args.runAt = none →
       resolveVestingTime now args.runAfter args.runAt = .ok now) ∧
    (∀ v, resolveVestingTime now args.runAfter args.runAt = .ok v →
       ∃ eff, enqueue config items pointer args now = .ok eff ∧
         eff.items = items ++ [buildQueueItem config args v]) := by
  refine ⟨?_, ?_, ?_, ?_, ?_, ?_⟩
  · intro hAfter hAt
    simp [enqueue, resolveVestingTime, hAfter, hAt]
  · intro hmem hAfter hAt
    exact enqueueBatchLoop_error_of_both config now batch [] [] args hmem hAfter hAt
  · intro d hAfter hAt
    simp [resolveVestingTime, hAfter, hAt]
  · intro t hAfter hAt
    simp [resolveVestingTime, hAfter, hAt]
  · intro hAfter hAt
    simp [resolveVestingTime, hAfter, hAt]
  · intro v hres
    cases pointer with
    | none =>
      refine ⟨⟨items ++ [buildQueueItem config args v],
               some ⟨args.queueId, v, none, none, now⟩, none, true⟩, ?_, rfl⟩
      simp [enqueue, hres]
    | some p =>
      by_cases hlt : v < p.vestingTime
      · refine ⟨⟨items ++ [buildQueueItem config args v], some p, some v, false⟩,
          ?_, rfl⟩
        simp [enqueue, hres, hlt]
      · refine ⟨⟨items ++ [buildQueueItem config args v], some p, none, false⟩,
          ?_, rfl⟩
        simp [enqueue, hres, hlt]

/-- Concrete enqueue arguments used by witnesses. -/
def wArgs : EnqueueArgs :=
  { queueId := "orders"
    payload := "job-2"
    handler := "handlers.process"
    handlerType := none
    onCompleteHandler := none
    onCompleteContext := none
    retry := none
    retryBehavior := none
    runAfter := none
    runAt := none }

/-- Witness for C8: both-supplied fails `enqueue` and `enqueueBatch`; each
of the three legal combinations resolves as claimed. -/
theorem schedule_args_exclusive_witness :
    (enqueue CONFIG_DEFAULTS [] none
       { wArgs with runAfter := some 5, runAt := some 70 } 100 =
       .error "Specify only one of runAfter or runAt") ∧
    (∃ e, enqueueBatch CONFIG_DEFAULTS
       [{ wArgs with runAfter := some 5, runAt := some 70 }] 100 = .error e) ∧
    resolveVestingTime 100 (some 5) none = .ok 105 ∧
    resolveVestingTime 100 none (some 70) = .ok 70 ∧
    resolveVestingTime 100 none none = .ok 100 := by
  have h := schedule_args_exclusive CONFIG_DEFAULTS [] none 100
    { wArgs with runAfter := some 5, runAt := some 70 }
    [{ wArgs with runAfter := some 5, runAt := some 70 }]
  have h1 := schedule_args_exclusive CONFIG_DEFAULTS [] none 100
    { wArgs with runAfter := some 5 } []
  have h2 := schedule_args_exclusive CONFIG_DEFAULTS [] none 100
    { wArgs with runAt := some 70 } []
  have h3 := schedule_args_exclusive CONFIG_DEFAULTS [] none 100 wArgs []
  exact ⟨h.1 (by decide) (by decide),
         h.2.1 (List.mem_singleton.mpr rfl) (by decide) (by decide),
         h1.2.2.1 5 rfl rfl,
         h2.2.2.2.1 70 rfl rfl,
         h3.2.2.2.2.1 rfl rfl⟩

/-- C7: enqueueing an item whose resolved vesting time `T2` is earlier
than the queue pointer's current reading `T1` requests a pointer-tightening
update for exactly `T2`; applying that update (while the pointer still
reads `T1 > T2`) makes the pointer's vesting time `T2`, never leaving it at
`T1`; and `updatePointerVesting` is monotonic in the only-move-earlier
sense — a proposed vesting time at or above the pointer's current value
writes nothing. -/
theorem pointer_tightening
    (config : ResolvedConfig) (items : List QueueItem) (p : QueuePointer)
    (args : EnqueueArgs) (now now' : Time) (T2 : Time)
    (hres : resolveVestingTime now args.runAfter args.runAt = .ok T2)
    (hlt : T2 < p.vestingTime) :
    (∃ eff, enqueue config items (some p) args now = .ok eff ∧
       eff.tightenRequest = some T2) ∧
    updatePointerVesting (some p) T2 now' =
      (some { p with vestingTime := T2, lastActiveTime := now' }, true) ∧
    (∀ q : QueuePointer, ∀ v, q.vestingTime ≤ v →
       updatePointerVesting (some q) v now' = (some q, false)) := by
  refine ⟨⟨⟨items ++ [buildQueueItem config args T2], some p, some T2, false⟩,
           ?_, rfl⟩, ?_, ?_⟩
  · simp [enqueue, hres, hlt]
  · simp [updatePointerVesting, hlt]
  · intro q v hle
    simp [updatePointerVesting, Nat.not_lt.mpr hle]

/-- Unleased variant of `wPointer`, used by witnesses. -/
def wPointerFree : QueuePointer :=
  { wPointer with leaseId := none, leaseExpiry := none }

/-- Witness for C7: an item due at 40 enqueued into a queue whose
unleased pointer reads 900 tightens the pointer to 40; proposing 900 back
writes nothing. -/
theorem pointer_tightening_witness :
    (∃ eff, enqueue CONFIG_DEFAULTS [] (some wPointerFree)
       { wArgs with runAt := some 40 } 100 = .ok eff ∧
       eff.tightenRequest = some 40) ∧
    updatePointerVesting (some wPointerFree) 40 120 =
      (some { wPointerFree with vestingTime := 40, lastActiveTime := 120 },
       true) ∧
    updatePointerVesting (some wPointerFree) 900 120 =
      (some wPointerFree, false) := by
  have h := pointer_tightening CONFIG_DEFAULTS [] wPointerFree
    { wArgs with runAt := some 40 } 100 120 40 (by rfl) (by decide)
  exact ⟨h.1, h.2.1, h.2.2 wPointerFree 900 (by decide)⟩

/-- Every item the `collectAvailableItems` scan selects was ready
(`vestingTime ≤ now`) and held no unexpired lease at scan time, provided
the accumulator already satisfied this (helper shared by several
theorems). -/
theorem collectAux_mem_ready (orderBy : QueueOrder) (now : Time)
    (limit maxScan : Nat) :
    ∀ (items : List QueueItem) (scanned : Nat) (acc : List QueueItem),
      (∀ r ∈ acc, leaseActive r.leaseExpiry now = false ∧ r.vestingTime ≤ now) →
      ∀ r ∈ collectAux orderBy now limit maxScan scanned acc items,
        leaseActive r.leaseExpiry now = false ∧ r.vestingTime ≤ now := by
  intro items
  induction items with
  | nil =>
    intro scanned acc hacc r hr
    simp only [collectAux] at hr
    exact hacc r hr
  | cons item rest ih =>
    intro scanned acc hacc r hr
    simp only [collectAux] at hr
    by_cases h1 : maxScan < scanned + 1
    · simp only [if_pos h1] at hr
      exact hacc r hr
    simp only [if_neg h1] at hr
    by_cases h2 : now < item.vestingTime
    · simp only [if_pos h2] at hr
      exact hacc r hr
    simp only [if_neg h2] at hr
    by_cases h3 : leaseActive item.leaseExpiry now = true
    · simp only [h3, if_true] at hr
      cases orderBy with
      | fifo => exact hacc r hr
      | vesting => exact ih _ _ hacc r hr
    · have h3' : leaseActive item.leaseExpiry now = false :=
        Bool.eq_false_iff.mpr (fun h => h3 h)
      simp only [h3', Bool.false_eq_true, if_false] at hr
      have hacc' : ∀ r ∈ acc ++ [item],
          leaseActive r.leaseExpiry now = false ∧ r.vestingTime ≤ now := by
        intro r' hr'
        rcases List.mem_append.mp hr' with hl | hone
        · exact hacc r' hl
        · rcases List.mem_singleton.mp hone with rfl
          exact ⟨h3', Nat.not_lt.mp h2⟩
      by_cases h4 : limit ≤ (acc ++ [item]).length
      · simp only [if_pos h4] at hr
        exact hacc' r hr
      · simp only [if_neg h4] at hr
        exact ih _ _ hacc' r hr

/-- C6: lease acquisition (`obtainItemLease`, `obtainPointerLease`, and the
per-item claim inside `dequeue`) succeeds only when the row exists and
holds no unexpired lease; on success it stores the fresh token, sets
`leaseExpiry = now + duration` and `vestingTime = leaseExpiry`, so the
leased row no longer qualifies as ready at any instant before the lease
expiry; with an unexpired lease held it returns `null` and leaves the row
unchanged. The `dequeue` selection only ever contains rows with no
unexpired lease, and every entry it claims carries the fresh token and the
`leaseExpiry`-aliased vesting time. -/
theorem lease_acquisition
    (freshId : String) (dur : Nat) (now : Time)
    (items : List QueueItem) (limit : Nat) (orderBy : QueueOrder)
    (fresh : Nat → String) :
    obtainItemLease none freshId dur now = (none, none) ∧
    (∀ item : QueueItem, leaseActive item.leaseExpiry now = true →
       obtainItemLease (some item) freshId dur now = (some item, none)) ∧
    (∀ item : QueueItem, leaseActive item.leaseExpiry now = false →
       obtainItemLease (some item) freshId dur now =
         (some { item with
                   leaseId := some freshId
                   leaseExpiry := some (now + dur)
                   vestingTime := now + dur },
          some freshId) ∧
       (∀ t, t < now + dur →
          ¬ ({ item with
                 leaseId := some freshId
                 leaseExpiry := some (now + dur)
                 vestingTime := now + dur } : QueueItem).vestingTime ≤ t)) ∧
    obtainPointerLease none freshId dur now = (none, none) ∧
    (∀ p : QueuePointer, leaseActive p.leaseExpiry now = true →
       obtainPointerLease (some p) freshId dur now = (some p, none)) ∧
    (∀ p : QueuePointer, leaseActive p.leaseExpiry now = false →
       obtainPointerLease (some p) freshId dur now =
         (some { p with
                   leaseId := some freshId
                   leaseExpiry := some (now + dur)
                   vestingTime := now + dur },
          some freshId)) ∧
    (∀ r ∈ collectAvailableItems items limit orderBy now,
       leaseActive r.leaseExpiry now = false ∧ r.vestingTime ≤ now) ∧
    (∀ pr ∈ dequeue items limit dur orderBy now fresh,
       pr.1.leaseId = some pr.2 ∧ pr.1.leaseExpiry = some (now + dur) ∧
       pr.1.vestingTime = now + dur) := by
  refine ⟨rfl, ?_, ?_, rfl, ?_, ?_, ?_, ?_⟩
  · intro item h
    simp [obtainItemLease, h]
  · intro item h
    refine ⟨by simp [obtainItemLease, h], ?_⟩
    intro t ht
    simpa using Nat.not_le.mpr ht
  · intro p h
    simp [obtainPointerLease, h]
  · intro p h
    simp [obtainPointerLease, h]
  · exact collectAux_mem_ready orderBy now limit 1000 items 0 []
      (fun r hr => absurd hr (List.not_mem_nil r))
  · intro pr hpr
    simp only [dequeue, List.mem_map] at hpr
    obtain ⟨⟨i, q⟩, _, rfl⟩ := hpr
    exact ⟨rfl, rfl, rfl⟩

/-- Ready, unleased item used by witnesses (vesting time 0, no lease). -/
def wItemFree : QueueItem :=
  { wItem with leaseId := none, leaseExpiry := none }

/-- Witness for C6: acquiring at `now = 100` for 30000 ms on the unleased
item and pointer succeeds and hides the row until the expiry; the leased
pointer refuses; the dequeue of a one-item queue claims it with the fresh
token. -/
theorem lease_acquisition_witness :
    obtainItemLease (some wItemFree) "tok-1" 30000 100 =
      (some { wItemFree with
                leaseId := some "tok-1"
                leaseExpiry := some 30100
                vestingTime := 30100 },
       some "tok-1") ∧
    obtainPointerLease (some wPointer) "tok-2" 30000 100 = (some wPointer, none) ∧
    (∀ pr ∈ dequeue [wItemFree] 10 30000 .vesting 100 (fun _ => "tok-3"),
       pr.1.leaseId = some pr.2 ∧ pr.1.leaseExpiry = some 30100 ∧
       pr.1.vestingTime = 30100) := by
  have h := lease_acquisition "tok-1" 30000 100 [wItemFree] 10 .vesting
    (fun _ => "tok-3")
  have h2 := lease_acquisition "tok-2" 30000 100 [wItemFree] 10 .vesting
    (fun _ => "tok-3")
  exact ⟨(h.2.2.1 wItemFree (by decide)).1,
         h2.2.2.2.2.1 wPointer (by decide),
         h.2.2.2.2.2.2.2⟩

/-- Readiness-and-availability test used to characterise the FIFO scan:
the item is ready (`vestingTime ≤ now`) and holds no unexpired lease. -/
def readyUnleased (now : Time) (i : QueueItem) : Bool :=
  decide (i.vestingTime ≤ now) && !leaseActive i.leaseExpiry now

/-- Characterisation of the FIFO scan loop: as long as the scan cap and the
selection limit have not been hit, the loop returns the accumulator
followed by the longest ready-and-unleased front of the remaining items,
truncated to the remaining limit — i.e. it stops (without skipping) at the
first item that is not yet ready or currently leased. -/
theorem collectAux_fifo_eq (now : Time) (limit maxScan : Nat) :
    ∀ (items : List QueueItem) (scanned : Nat) (acc : List QueueItem),
      scanned + items.length ≤ maxScan → acc.length < limit →
      collectAux .fifo now limit maxScan scanned acc items =
        acc ++ (items.takeWhile (readyUnleased now)).take (limit - acc.length) := by
  intro items
  induction items with
  | nil => intro scanned acc _ _; simp [collectAux]
  | cons item rest ih =>
    intro scanned acc hscan hacc
    have h1 : ¬ maxScan < scanned + 1 := by
      simp only [List.length_cons] at hscan; omega
    simp only [collectAux, if_neg h1]
    by_cases h2 : now < item.vestingTime
    · have hp : readyUnleased now item = false := by
        simp [readyUnleased, Nat.not_le.mpr h2]
      simp [if_pos h2, List.takeWhile_cons, hp]
    · have hready : decide (item.vestingTime ≤ now) = true := by
        simp [Nat.not_lt.mp h2]
      by_cases h3 : leaseActive item.leaseExpiry now = true
      · have hp : readyUnleased now item = false := by
          simp [readyUnleased, h3]
        simp [if_neg h2, h3, List.takeWhile_cons, hp]
      · have h3' : leaseActive item.leaseExpiry now = false :=
          Bool.eq_false_iff.mpr (fun h => h3 h)
        have hp : readyUnleased now item = true := by
          simp [readyUnleased, hready, h3']
        simp only [if_neg h2, h3', Bool.false_eq_true, if_false,
          List.takeWhile_cons, hp, if_true]
        by_cases h4 : limit ≤ (acc ++ [item]).length
        · have hlim : limit - acc.length = 1 := by
            simp only [List.length_append, List.length_cons,
              List.length_nil] at h4 ⊢
            omega
          rw [if_pos h4, hlim]
          simp
        · have hrec := ih (scanned + 1) (acc ++ [item])
            (by simp only [List.length_cons] at hscan; omega)
            (by simp only [List.length_append, List.length_cons,
                  List.length_nil] at h4 ⊢; omega)
          simp only [if_neg h4, hrec]
          have hsub : limit - acc.length = (limit - (acc ++ [item]).length) + 1 := by
            simp only [List.length_append, List.length_cons, List.length_nil]
            omega
          rw [hsub, List.take_succ_cons, List.append_assoc, List.singleton_append]
      -- vesting branch never taken here
  -- end fifo

/-- Characterisation of the vesting-order scan loop: the loop returns the
accumulator followed by the unleased items of the ready front (items up to
the first one with `vestingTime > now`), truncated to the remaining limit —
i.e. it stops at the first not-yet-ready item and skips, without stopping,
items whose lease has not expired. -/
theorem collectAux_vesting_eq (now : Time) (limit maxScan : Nat) :
    ∀ (items : List QueueItem) (scanned : Nat) (acc : List QueueItem),
      scanned + items.length ≤ maxScan → acc.length < limit →
      collectAux .vesting now limit maxScan scanned acc items =
        acc ++ ((items.takeWhile (fun i => decide (i.vestingTime ≤ now))).filter
          (fun i => !leaseActive i.leaseExpiry now)).take (limit - acc.length) := by
  intro items
  induction items with
  | nil => intro scanned acc _ _; simp [collectAux]
  | cons item rest ih =>
    intro scanned acc hscan hacc
    have h1 : ¬ maxScan < scanned + 1 := by
      simp only [List.length_cons] at hscan; omega
    simp only [collectAux, if_neg h1]
    by_cases h2 : now < item.vestingTime
    · have hp : decide (item.vestingTime ≤ now) = false := by
        simp [Nat.not_le.mpr h2]
      simp [if_pos h2, List.takeWhile_cons, hp]
    · have hready : decide (item.vestingTime ≤ now) = true := by
        simp [Nat.not_lt.mp h2]
      by_cases h3 : leaseActive item.leaseExpiry now = true
      · have hrec := ih (scanned + 1) acc
          (by simp only [List.length_cons] at hscan; omega) hacc
        simp only [if_neg h2, h3, if_true, hrec, List.takeWhile_cons, hready,
          if_true, List.filter_cons, h3, Bool.not_true, Bool.false_eq_true,
          if_false]
      · have h3' : leaseActive item.leaseExpiry now = false :=
          Bool.eq_false_iff.mpr (fun h => h3 h)
        simp only [if_neg h2, h3', Bool.false_eq_true, if_false,
          List.takeWhile_cons, hready, if_true, List.filter_cons, h3',
          Bool.not_false, if_true]
        by_cases h4 : limit ≤ (acc ++ [item]).length
        · have hlim : limit - acc.length = 1 := by
            simp only [List.length_append, List.length_cons,
              List.length_nil] at h4 ⊢
            omega
          rw [if_pos h4, hlim]
          simp
        · have hrec := ih (scanned + 1) (acc ++ [item])
            (by simp only [List.length_cons] at hscan; omega)
            (by simp only [List.length_append, List.length_cons,
                  List.length_nil] at h4 ⊢; omega)
          simp only [if_neg h4, hrec]
          have hsub : limit - acc.length = (limit - (acc ++ [item]).length) + 1 := by
            simp only [List.length_append, List.length_cons, List.length_nil]
            omega
          rw [hsub, List.take_succ_cons, List.append_assoc, List.singleton_append]

/-- C2: the item-selection scan (used by `dequeue` and `peekItems`) obeys
the two disciplines. In vesting order (index delivers items sorted by
`vestingTime` ascending) it stops at the first item with
`vestingTime > now` and skips, without stopping, any item whose lease has
not expired — the selection is the unleased members of the ready front, so
a later ready item is selected ahead of a leased earlier one. In FIFO
order (insertion order) it stops at the first item that is not yet ready
or currently leased, selecting nothing past that point — the selection is
the longest ready-and-unleased front. Stated below the 1000-row scan cap
and for a positive limit. -/
theorem collect_scan_discipline
    (items : List QueueItem) (limit : Nat) (now : Time)
    (hlen : items.length ≤ 1000) (hlim : 0 < limit)
    (_hsorted : items.Pairwise (fun a b => a.vestingTime ≤ b.vestingTime)) :
    collectAvailableItems items limit .vesting now =
      ((items.takeWhile (fun i => decide (i.vestingTime ≤ now))).filter
        (fun i => !leaseActive i.leaseExpiry now)).take limit ∧
    collectAvailableItems items limit .fifo now =
      (items.takeWhile (readyUnleased now)).take limit := by
  constructor
  · have h := collectAux_vesting_eq now limit 1000 items 0 []
      (by simpa using hlen) (by simpa using hlim)
    simpa [collectAvailableItems] using h
  · have h := collectAux_fifo_eq now limit 1000 items 0 []
      (by simpa using hlen) (by simpa using hlim)
    simpa [collectAvailableItems] using h

/-- Scan-witness items: `wScanA` is ready but leased until 200, `wScanB`
is ready and unleased, `wScanC` is not ready before 150. -/
def wScanA : QueueItem :=
  { wItemFree with vestingTime := 10, leaseId := some "L", leaseExpiry := some 200 }

/-- Ready unleased scan-witness item, due at 20. -/
def wScanB : QueueItem := { wItemFree with vestingTime := 20 }

/-- Future scan-witness item, due at 150. -/
def wScanC : QueueItem := { wItemFree with vestingTime := 150 }

/-- Witness for C2 at `now = 100`: vesting order skips the leased `wScanA`
and selects `wScanB`, stopping at the future `wScanC`; FIFO order stops
dead at the leased head and selects nothing. -/
theorem collect_scan_discipline_witness :
    collectAvailableItems [wScanA, wScanB, wScanC] 10 .vesting 100 = [wScanB] ∧
    collectAvailableItems [wScanA, wScanB, wScanC] 10 .fifo 100 = [] := by
  have h := collect_scan_discipline [wScanA, wScanB, wScanC] 10 100
    (by decide) (by decide) (by decide)
  exact ⟨by rw [h.1]; decide, by rw [h.2]; decide⟩

/-- C4: the retry delay for attempt `n` is
`initialBackoffMs * base ^ max(0, n-1)` (so 250, 500, 1000, 2000 ms for
attempts 1..4 of the default `{maxAttempts:5, initialBackoffMs:250,
base:2}` policy); on a failure finalize with retry enabled the item
returns to the run phase — `errorCount` incremented, `vestingTime = now +
delay`, lease cleared — exactly while the post-increment `errorCount <
maxAttempts`; otherwise (budget exhausted, or retry disabled) the item
transitions to `phase = onComplete` with `completionStatus = failure`. In
particular the 5th failure under `maxAttempts = 5` takes the on-complete
transition instead of retrying (witnessed below at `errorCount = 4`). -/
theorem retry_backoff_policy
    (rb : RetryBehavior) (n : Nat) (item : QueueItem) (lid : String)
    (result : Option String) (cb : CbOutcome) (now : Time)
    (hlease : item.leaseId = some lid)
    (hphase : item.phase.getD .run ≠ .onComplete) :
    getRetryDelayMs rb n = rb.initialBackoffMs * rb.base ^ (max 0 (n - 1)) ∧
    getRetryDelayMs DEFAULT_RETRY_BEHAVIOR 1 = 250 ∧
    getRetryDelayMs DEFAULT_RETRY_BEHAVIOR 2 = 500 ∧
    getRetryDelayMs DEFAULT_RETRY_BEHAVIOR 3 = 1000 ∧
    getRetryDelayMs DEFAULT_RETRY_BEHAVIOR 4 = 2000 ∧
    (item.retryEnabled = some true → item.retryBehavior = some rb →
      ((finalizeActionWorker (some item) lid (some .failure) result cb
          now).result.retriedWork = true ↔
        item.errorCount + 1 < rb.maxAttempts) ∧
      (item.errorCount + 1 < rb.maxAttempts →
        finalizeActionWorker (some item) lid (some .failure) result cb now =
          ⟨some { item with
                    errorCount := item.errorCount + 1
                    vestingTime := now + getRetryDelayMs rb (item.errorCount + 1)
                    leaseId := none
                    leaseExpiry := none },
           ⟨false, true, false⟩,
           [.patchItem { item with
                           errorCount := item.errorCount + 1
                           vestingTime :=
                             now + getRetryDelayMs rb (item.errorCount + 1)
                           leaseId := none
                           leaseExpiry := none },
            .requestWake item.queueId
              (now + getRetryDelayMs rb (item.errorCount + 1))]⟩) ∧
      (¬ item.errorCount + 1 < rb.maxAttempts →
        ∃ tail,
          (finalizeActionWorker (some item) lid (some .failure) result cb
              now).events =
            .patchItem { item with
                           phase := some .onComplete
                           completionStatus := some .failure
                           completionResult := result } :: tail ∧
          (finalizeActionWorker (some item) lid (some .failure) result cb
              now).result.retriedWork = false)) ∧
    (item.retryEnabled.getD false = false →
      ∃ tail,
        (finalizeActionWorker (some item) lid (some .failure) result cb
            now).events =
          .patchItem { item with
                         phase := some .onComplete
                         completionStatus := some .failure
                         completionResult := result } :: tail ∧
        (finalizeActionWorker (some item) lid (some .failure) result cb
            now).result.retriedWork = false) := by
  refine ⟨?_, rfl, rfl, rfl, rfl, ?_, ?_⟩
  · simp [getRetryDelayMs]
  · intro hen hrb
    have hgate : item.errorCount + 1 < max 1 rb.maxAttempts ↔
        item.errorCount + 1 < rb.maxAttempts := by omega
    constructor
    · by_cases h : item.errorCount + 1 < rb.maxAttempts
      · have hm : item.errorCount + 1 < max 1 rb.maxAttempts := hgate.mpr h
        simp [finalizeActionWorker, hlease, hphase, hen, hrb, hm, h]
      · have hm : ¬ item.errorCount + 1 < max 1 rb.maxAttempts :=
          fun hc => h (hgate.mp hc)
        simp [finalizeActionWorker, hlease, hphase, hen, hrb, hm, h]
    constructor
    · intro h
      have hm : item.errorCount + 1 < max 1 rb.maxAttempts := hgate.mpr h
      simp [finalizeActionWorker, hlease, hphase, hen, hrb, hm, getRetryDelayMs]
    · intro h
      have hm : ¬ item.errorCount + 1 < max 1 rb.maxAttempts :=
        fun hc => h (hgate.mp hc)
      refine ⟨(runOnCompleteForItem { item with
                  phase := some .onComplete
                  completionStatus := some .failure
                  completionResult := result } cb now).events, ?_, ?_⟩
      · simp [finalizeActionWorker, hlease, hphase, hen, hrb, hm]
      · simp [finalizeActionWorker, hlease, hphase, hen, hrb, hm]
  · intro hdis
    refine ⟨(runOnCompleteForItem { item with
                phase := some .onComplete
                completionStatus := some .failure
                completionResult := result } cb now).events, ?_, ?_⟩
    · simp [finalizeActionWorker, hlease, hphase, hdis]
    · simp [finalizeActionWorker, hlease, hphase, hdis]

/-- Witness for C4: the run-phase `wItem` with `errorCount = 4` and the
default retry policy (maxAttempts 5) fails for the 5th time: the finalize
takes the on-complete transition (retriedWork = false, first event is the
phase patch) instead of retrying; the concrete delays evaluate as claimed;
and the same item at `errorCount = 0` retries with a 250 ms backoff. -/
theorem retry_backoff_policy_witness :
    getRetryDelayMs DEFAULT_RETRY_BEHAVIOR 1 = 250 ∧
    getRetryDelayMs DEFAULT_RETRY_BEHAVIOR 4 = 2000 ∧
    ((finalizeActionWorker (some wItem) "lease-A" (some .failure)
        (some "boom") .ok 100).result.retriedWork = true ↔ 0 + 1 < 5) ∧
    (∃ tail,
      (finalizeActionWorker (some { wItem with errorCount := 4 }) "lease-A"
          (some .failure) (some "boom") .ok 100).events =
        .patchItem { wItem with
                       errorCount := 4
                       phase := some .onComplete
                       completionStatus := some .failure
                       completionResult := some "boom" } :: tail ∧
      (finalizeActionWorker (some { wItem with errorCount := 4 }) "lease-A"
          (some .failure) (some "boom") .ok 100).result.retriedWork = false) := by
  have h0 := retry_backoff_policy DEFAULT_RETRY_BEHAVIOR 1 wItem "lease-A"
    (some "boom") .ok 100 (by decide) (by decide)
  have h4 := retry_backoff_policy DEFAULT_RETRY_BEHAVIOR 1
    { wItem with errorCount := 4 } "lease-A" (some "boom") .ok 100
    (by decide) (by decide)
  refine ⟨h0.2.1, h0.2.2.2.2.1, ?_, ?_⟩
  · exact (h0.2.2.2.2.2.1 rfl rfl).1
  · exact (h4.2.2.2.2.2.1 rfl rfl).2.2 (by decide)

/-- Helper: `runOnCompleteForItem` never invokes the primary handler. -/
theorem runOnComplete_no_handler_invocation (item : QueueItem) (cb : CbOutcome)
    (now : Time) :
    Event.invokeHandler ∉ (runOnCompleteForItem item cb now).events := by
  cases hoc : item.onCompleteHandler with
  | none => simp [runOnCompleteForItem, hoc]
  | some f =>
    cases cb with
    | ok => simp [runOnCompleteForItem, hoc]
    | err e =>
      by_cases ht : isTimeoutError e ∧
          item.onCompleteTimeoutRetries.getD 0 < DEFAULT_ON_COMPLETE_TIMEOUT_RETRIES
      · simp [runOnCompleteForItem, hoc, ht]
      · simp [runOnCompleteForItem, hoc, ht]

/-- Helper: `runOnCompleteForItem` invokes the callback exactly once when
the item has an on-complete handler, and never otherwise. -/
theorem runOnComplete_callback_count (item : QueueItem) (cb : CbOutcome)
    (now : Time) :
    countCallbackInvocations (runOnCompleteForItem item cb now).events =
      if item.onCompleteHandler.isSome then 1 else 0 := by
  cases hoc : item.onCompleteHandler with
  | none => simp [runOnCompleteForItem, hoc, countCallbackInvocations]
  | some f =>
    cases cb with
    | ok => simp [runOnCompleteForItem, hoc, countCallbackInvocations]
    | err e =>
      by_cases ht : isTimeoutError e ∧
          item.onCompleteTimeoutRetries.getD 0 < DEFAULT_ON_COMPLETE_TIMEOUT_RETRIES
      · simp [runOnCompleteForItem, hoc, ht, countCallbackInvocations]
      · simp [runOnCompleteForItem, hoc, ht, countCallbackInvocations]

/-- Helper: a successful callback run (or a missing callback) always ends
with the item deleted. -/
theorem runOnComplete_ok_deletes (item : QueueItem) (now : Time) :
    (runOnCompleteForItem item .ok now).store = none := by
  cases hoc : item.onCompleteHandler with
  | none => simp [runOnCompleteForItem, hoc]
  | some f => simp [runOnCompleteForItem, hoc]

/-- C1: for an item holding a matching lease whose handler run concludes
with a terminal outcome (any finalize status that does not take the retry
transition), `finalizeActionWorker` persists `phase = onComplete` together
with `completionStatus` and `completionResult` strictly before the
on-complete callback is invoked — its event trace is the phase patch
followed by the on-complete events, with the primary handler never
invoked. And for an item already persisted with `phase = onComplete` and a
matching lease, re-dispatching the worker (`prepareActionWorkerExecution`
then `finalizeActionWorker`, as `runWorkerAction` does) invokes only the
completion callback — exactly once when one is set, never the primary
handler — and deletes the item when the callback succeeds. -/
theorem crash_safe_on_complete
    (item : QueueItem) (lid : String) (st : CompletionStatus)
    (result : Option String) (cb : CbOutcome) (now : Time) (h : HandlerOutcome)
    (hlease : item.leaseId = some lid)
    (hphase : item.phase.getD .run ≠ .onComplete)
    (hterm : ¬(st = .failure ∧ item.retryEnabled.getD false = true ∧
        item.errorCount + 1 <
          max 1 (item.retryBehavior.getD DEFAULT_RETRY_BEHAVIOR).maxAttempts)) :
    ((finalizeActionWorker (some item) lid (some st) result cb now).events =
       .patchItem { item with
                      phase := some .onComplete
                      completionStatus := some st
                      completionResult := result } ::
         (runOnCompleteForItem { item with
                      phase := some .onComplete
                      completionStatus := some st
                      completionResult := result } cb now).events ∧
     Event.invokeHandler ∉
       (finalizeActionWorker (some item) lid (some st) result cb now).events) ∧
    (∀ item₂ : QueueItem, item₂.leaseId = some lid →
       item₂.phase = some .onComplete →
       Event.invokeHandler ∉ (runWorkerAction (some item₂) lid h cb now).events ∧
       countCallbackInvocations
           (runWorkerAction (some item₂) lid h cb now).events =
         (if item₂.onCompleteHandler.isSome then 1 else 0) ∧
       (cb = .ok → (runWorkerAction (some item₂) lid h cb now).store = none)) := by
  constructor
  · have hev : (finalizeActionWorker (some item) lid (some st) result cb
        now).events =
        .patchItem { item with
                       phase := some .onComplete
                       completionStatus := some st
                       completionResult := result } ::
          (runOnCompleteForItem { item with
                       phase := some .onComplete
                       completionStatus := some st
                       completionResult := result } cb now).events := by
      have hterm' : ¬(st = CompletionStatus.failure ∧
          item.retryEnabled.getD false = true ∧
          item.errorCount + 1 <
            (item.retryBehavior.getD DEFAULT_RETRY_BEHAVIOR).maxAttempts) :=
        fun hc => hterm ⟨hc.1, hc.2.1, by have := hc.2.2; omega⟩
      simp [finalizeActionWorker, hlease, hphase, hterm']
    refine ⟨hev, ?_⟩
    rw [hev]
    intro hmem
    rcases List.mem_cons.mp hmem with hpe | hstep
    · exact Event.noConfusion hpe
    · exact runOnComplete_no_handler_invocation _ cb now hstep
  · intro item₂ hlease₂ hphase₂
    have hrw : runWorkerAction (some item₂) lid h cb now =
        ⟨(runOnCompleteForItem item₂ cb now).store,
         (runOnCompleteForItem item₂ cb now).events⟩ := by
      simp [runWorkerAction, prepareActionWorkerExecution, finalizeActionWorker,
        hlease₂, hphase₂]
    rw [hrw]
    exact ⟨runOnComplete_no_handler_invocation item₂ cb now,
           runOnComplete_callback_count item₂ cb now,
           fun hok => by rw [hok]; exact runOnComplete_ok_deletes item₂ now⟩

/-- Witness for C1: the leased run-phase `wItem` finalized with success
persists the phase patch ahead of the callback events, and the same item
already at `phase = onComplete` with `completionStatus = success`
re-dispatched through the worker invokes exactly one callback, no primary
handler, and is deleted on callback success. -/
theorem crash_safe_on_complete_witness :
    ((finalizeActionWorker (some wItem) "lease-A" (some .success) (some "r")
        .ok 100).events =
      .patchItem { wItem with
                     phase := some .onComplete
                     completionStatus := some .success
                     completionResult := some "r" } ::
        (runOnCompleteForItem { wItem with
                     phase := some .onComplete
                     completionStatus := some .success
                     completionResult := some "r" } .ok 100).events ∧
     Event.invokeHandler ∉
       (finalizeActionWorker (some wItem) "lease-A" (some .success) (some "r")
          .ok 100).events) ∧
    (Event.invokeHandler ∉
       (runWorkerAction (some { wItem with phase := some .onComplete })
          "lease-A" (.ok "x") .ok 100).events ∧
     countCallbackInvocations
         (runWorkerAction (some { wItem with phase := some .onComplete })
            "lease-A" (.ok "x") .ok 100).events = 1 ∧
     (runWorkerAction (some { wItem with phase := some .onComplete })
        "lease-A" (.ok "x") .ok 100).store = none) := by
  have hc := crash_safe_on_complete wItem "lease-A" .success (some "r") .ok 100
    (.ok "x") (by decide) (by decide) (by decide)
  have hb := hc.2 { wItem with phase := some .onComplete } (by decide) (by decide)
  exact ⟨hc.1, hb.1, hb.2.1, hb.2.2 rfl⟩

/-- C5 counterexample: an error object whose `message` is `"boom"` and
which carries no `cause`/`data`, but whose string conversion is
`"Operation timeout"` (in JS, an object with its own `toString`), is
classified as a timeout by `isTimeoutError` — because the source always
also tests `String(error)` — even though none of its message, cause, or
nested data field matches the pattern, contradicting the claim's "iff". -/
theorem timeout_classification_counterexample :
    isTimeoutError (.obj (some "boom") none none "Operation timeout") = true ∧
    specTimeoutClassified
      (.obj (some "boom") none none "Operation timeout") = false := by
  decide

/-- C5 (amended): the callback error is classified as a timeout iff its
message, cause, nested data field, **or string representation** matches
/timed out|timeout/ case-insensitively; a timeout-classified error with
fewer than 2 prior timeout retries re-schedules the on-complete phase
(`onCompleteTimeoutRetries` incremented, lease cleared, item retained), so
a callback that throws timeout-classified errors exactly twice then
succeeds is invoked exactly 3 times and the item is then deleted; any
non-timeout callback error, or a timeout at the bound, is terminal and
deletes the item after exactly that invocation. -/
theorem timeout_classification_and_bound
    (e eBad : ErrVal) (item : QueueItem) (f : String) (now : Time) :
    (∀ err : ErrVal, isTimeoutError err =
       (specTimeoutClassified err || timeoutPattern (errToString err))) ∧
    (item.onCompleteHandler = some f → isTimeoutError e = true →
       item.onCompleteTimeoutRetries.getD 0 < 2 →
       runOnCompleteForItem item (.err e) now =
         ⟨some { item with
                   onCompleteTimeoutRetries :=
                     some (item.onCompleteTimeoutRetries.getD 0 + 1)
                   vestingTime := now + 100
                   leaseId := none
                   leaseExpiry := none },
          false, true,
          [.invokeCallback (item.completionStatus.getD .failure)
             item.completionResult,
           .patchItem { item with
                          onCompleteTimeoutRetries :=
                            some (item.onCompleteTimeoutRetries.getD 0 + 1)
                          vestingTime := now + 100
                          leaseId := none
                          leaseExpiry := none },
           .requestWake item.queueId (now + 100)]⟩) ∧
    (item.onCompleteHandler = some f → item.onCompleteTimeoutRetries = none →
       isTimeoutError e = true →
       runOnCompleteLoop item now [.err e, .err e, .ok] = (none, 3)) ∧
    (item.onCompleteHandler = some f → isTimeoutError eBad = false →
       runOnCompleteLoop item now [.err eBad] = (none, 1)) ∧
    (item.onCompleteHandler = some f →
       ¬ item.onCompleteTimeoutRetries.getD 0 < 2 →
       runOnCompleteForItem item (.err e) now =
         ⟨none, true, false,
          [.invokeCallback (item.completionStatus.getD .failure)
             item.completionResult,
           .deleteItem]⟩) := by
  refine ⟨?_, ?_, ?_, ?_, ?_⟩
  · intro err
    cases err with
    | str s => simp [isTimeoutError, specTimeoutClassified, errToString]
    | obj m c d s =>
      cases d with
      | none =>
        cases m <;> cases c <;>
          simp [isTimeoutError, specTimeoutClassified, errToString,
            Bool.or_assoc]
      | some dv =>
        cases dv with
        | str s' =>
          cases m <;> cases c <;>
            simp [isTimeoutError, specTimeoutClassified, errToString,
              Bool.or_assoc]
        | obj mo =>
          cases mo <;> cases m <;> cases c <;>
            simp [isTimeoutError, specTimeoutClassified, errToString,
              Bool.or_assoc]
  · intro hoc ht hr
    simp [runOnCompleteForItem, hoc, ht, hr, DEFAULT_ON_COMPLETE_TIMEOUT_RETRIES]
  · intro hoc hr0 ht
    simp [runOnCompleteLoop, runOnCompleteForItem, hoc, hr0, ht,
      DEFAULT_ON_COMPLETE_TIMEOUT_RETRIES, countCallbackInvocations]
  · intro hoc hbad
    simp [runOnCompleteLoop, runOnCompleteForItem, hoc, hbad,
      countCallbackInvocations]
  · intro hoc hr
    simp [runOnCompleteForItem, hoc, hr, DEFAULT_ON_COMPLETE_TIMEOUT_RETRIES]

/-- Witness for C5 (amended) at concrete errors: `"Request timed out"`
(timeout-classified) thrown twice then success yields exactly 3
invocations and deletion; `"boom"` (not timeout-classified) is terminal
after exactly 1 invocation; the classification equation evaluated at the
counterexample object. -/
theorem timeout_classification_and_bound_witness :
    isTimeoutError (.obj (some "boom") none none "Operation timeout") =
      (specTimeoutClassified (.obj (some "boom") none none "Operation timeout")
        || timeoutPattern
             (errToString (.obj (some "boom") none none "Operation timeout"))) ∧
    runOnCompleteLoop wItem 100
      [.err (.str "Request timed out"), .err (.str "Request timed out"), .ok] =
      (none, 3) ∧
    runOnCompleteLoop wItem 100 [.err (.str "boom")] = (none, 1) := by
  have h := timeout_classification_and_bound (.str "Request timed out")
    (.str "boom") wItem "handlers.done" 100
  exact ⟨h.1 (.obj (some "boom") none none "Operation timeout"),
         h.2.2.1 rfl rfl (by decide),
         h.2.2.2.1 rfl (by decide)⟩

end Quick
